import Mathlib

/-!
Verification of the endpoint-builder execution core against its specification.

The definitions below are a shallow embedding of the TypeScript sources:
  src/core/HttpClient.ts      (`_execute`, `_dedupeKey`, `resolveUrl`, `_buildConfig`)
  src/core/RequestBuilder.ts  (builder fields and chainable methods)
  src/retry/ExponentialRetryStrategy.ts
  src/auth/AuthStrategy.ts    (OpaqueTokenStrategy, JitteredExponentialBackoffRetryStrategy)
  src/auth-strategies/refresh-rotation.strategy.ts

Strings are modelled as lists of characters (`Str`).  JavaScript `undefined`
versus `null` versus a value is modelled as `Option (Option α)`
(`none` = the field was never set, `some none` = explicit `null`,
`some (some a)` = an instance).  Asynchronous code is modelled by explicit
state passing: the attempt loop consumes an environment `Nat → IterEvent`
giving each fetch's outcome, and the shared-promise maps are modelled as
small transition systems driven by event lists (the event-loop scheduling
of the single-threaded runtime).
-/

/-- Character-list model of JavaScript strings. -/
abbrev Str := List Char

/-- Opening brace character (written numerically). -/
def lbraceChar : Char := Char.ofNat 123

/-- Closing brace character (written numerically). -/
def rbraceChar : Char := Char.ofNat 125

/-- Double-quote character. -/
def dquoteChar : Char := Char.ofNat 34

/-- Model of `JSON.stringify` applied to a string-valued record, for records
whose keys and values contain no characters that JSON would escape.  Used by
`_dedupeKey` (src/core/HttpClient.ts lines 225-234), which serializes the
query object and a plain-object body with `JSON.stringify`. -/
def jsonStringifyObj (fields : List (Str × Str)) : Str :=
  lbraceChar ::
    (List.intercalate [','] (fields.map fun kv =>
      (dquoteChar :: kv.1 ++ [dquoteChar]) ++ ':' :: (dquoteChar :: kv.2 ++ [dquoteChar])))
    ++ [rbraceChar]

/-- Request body model (`BodyLike` in src/core/HttpClient.ts line 14):
`noBody` covers JavaScript `null`/`undefined`, `strBody` a string payload,
`objBody` a plain string-valued object. -/
inductive Body where
  | noBody
  | strBody (s : Str)
  | objBody (fields : List (Str × Str))
  deriving DecidableEq

/-- Header map model: association list of name/value pairs. -/
abbrev Headers := List (Str × Str)

/-- Replace the value stored under key `k` (keeping its position, as a
JavaScript object does) or append the pair if the key is absent. -/
def setEntry (l : Headers) (k v : Str) : Headers :=
  match l with
  | [] => [(k, v)]
  | (k', v') :: t => if k' = k then (k', v) :: t else (k', v') :: setEntry t k v

/-- Model of utils/mergeHeaders.ts: spread the target, then write every
defined source entry over it (later wins per key). -/
def mergeHeaders (target src : Headers) : Headers :=
  src.foldl (fun acc kv => setEntry acc kv.1 kv.2) target

/-- Model of `a ?? b` (JavaScript nullish coalescing) on a field typed
`T | null | undefined` against a default typed `T | null`:
`none` (undefined) and `some none` (null) both fall through to the default.
This is exactly how src/core/HttpClient.ts resolves the per-request
overrides (`rb._retry ?? this.defaults.retryStrategy`, line 155, and
`rb._auth ?? this.defaults.auth`, line 274). -/
def jsNullish {α : Type} (override : Option (Option α)) (dflt : Option α) : Option α :=
  match override with
  | some (some a) => some a
  | _ => dflt

/-- Client defaults (src/core/HttpClient.ts constructor, lines 31-42).
`A` and `R` are the auth-strategy and retry-strategy interface types. -/
structure HttpClientDefaults (A R : Type) where
  baseUrl : Str := []
  auth : Option A := none
  dedupe : Bool := false
  defaultHeaders : Headers := []
  responseType : Option Str := none
  retryStrategy : Option R := none

/-- Per-request builder state (src/core/RequestBuilder.ts lines 20-29).
The tri-state override fields `_retry`/`_auth` use `Option (Option _)`:
`none` = never set (inherit), `some none` = explicit `null` (the doc
comments in the source say this means "disable"), `some (some s)` = an
explicit strategy instance. -/
structure RequestBuilder (A R : Type) where
  input : Str
  _method : Str := "GET".toList
  _body : Body := .noBody
  _headers : Headers := []
  _dedupe : Bool := true
  _query : Option (List (Str × Str)) := none
  _responseType : Option Str := none
  _timeout : Option Nat := none
  _signal : Option Nat := none
  _retry : Option (Option R) := none
  _auth : Option (Option A) := none

/-- Builder construction (src/core/RequestBuilder.ts lines 31-33): the
constructor copies the client's dedupe default into `_dedupe`. -/
def mkRequestBuilder {A R : Type} (client : HttpClientDefaults A R) (input : Str) :
    RequestBuilder A R :=
  { input := input, _dedupe := client.dedupe }

/-- `method(m)` (src/core/RequestBuilder.ts lines 40-43). -/
def RequestBuilder.method {A R : Type} (rb : RequestBuilder A R) (m : Str) : RequestBuilder A R :=
  { rb with _method := m }

/-- `query(params)` (src/core/RequestBuilder.ts lines 50-53). -/
def RequestBuilder.query {A R : Type} (rb : RequestBuilder A R) (params : List (Str × Str)) :
    RequestBuilder A R :=
  { rb with _query := some params }

/-- `header(name, value)` (src/core/RequestBuilder.ts lines 71-74). -/
def RequestBuilder.header {A R : Type} (rb : RequestBuilder A R) (name value : Str) :
    RequestBuilder A R :=
  { rb with _headers := setEntry rb._headers name value }

/-- `headers(map)` (src/core/RequestBuilder.ts lines 60-63). -/
def RequestBuilder.headersM {A R : Type} (rb : RequestBuilder A R) (m : Headers) :
    RequestBuilder A R :=
  { rb with _headers := mergeHeaders rb._headers m }

/-- `body(data)` (src/core/RequestBuilder.ts lines 91-94). -/
def RequestBuilder.bodyM {A R : Type} (rb : RequestBuilder A R) (data : Body) :
    RequestBuilder A R :=
  { rb with _body := data }

/-- `auth(strategy)` (src/core/RequestBuilder.ts lines 136-139): stores the
argument as-is, so `auth(null)` stores `some none`. -/
def RequestBuilder.auth {A R : Type} (rb : RequestBuilder A R) (strategy : Option A) :
    RequestBuilder A R :=
  { rb with _auth := some strategy }

/-- `retry(strategy)` (src/core/RequestBuilder.ts lines 209-212). -/
def RequestBuilder.retry {A R : Type} (rb : RequestBuilder A R) (strategy : Option R) :
    RequestBuilder A R :=
  { rb with _retry := some strategy }

/-- `dedupe(enable)` (src/core/RequestBuilder.ts lines 149-152). -/
def RequestBuilder.dedupe {A R : Type} (rb : RequestBuilder A R) (enable : Bool) :
    RequestBuilder A R :=
  { rb with _dedupe := enable }

/-- `timeout(ms)` (src/core/RequestBuilder.ts lines 189-192). -/
def RequestBuilder.timeout {A R : Type} (rb : RequestBuilder A R) (ms : Nat) :
    RequestBuilder A R :=
  { rb with _timeout := some ms }

/-- `signal(signal)` (src/core/RequestBuilder.ts lines 199-202); abort
signals are modelled by numeric identity. -/
def RequestBuilder.signalM {A R : Type} (rb : RequestBuilder A R) (s : Nat) :
    RequestBuilder A R :=
  { rb with _signal := some s }

/-- The engine's effective auth strategy (src/core/HttpClient.ts line 274:
`rb._auth ?? this.defaults.auth`). -/
def effectiveAuth {A R : Type} (c : HttpClientDefaults A R) (rb : RequestBuilder A R) :
    Option A :=
  jsNullish rb._auth c.auth

/-- The engine's effective retry strategy (src/core/HttpClient.ts line 155:
`rb._retry ?? this.defaults.retryStrategy`). -/
def effectiveRetryStrategy {A R : Type} (c : HttpClientDefaults A R) (rb : RequestBuilder A R) :
    Option R :=
  jsNullish rb._retry c.retryStrategy

/-- Serialization of the body for the dedupe key (src/core/HttpClient.ts
line 231): `JSON.stringify` for non-null objects, `String(body ?? "")`
otherwise. -/
def bodyKeyPart (b : Body) : Str :=
  match b with
  | .objBody fields => jsonStringifyObj fields
  | .strBody s => s
  | .noBody => []

/-- Serialization of the query for the dedupe key (src/core/HttpClient.ts
line 230): `rb._query ? JSON.stringify(rb._query) : ""`. -/
def queryKeyPart (q : Option (List (Str × Str))) : Str :=
  match q with
  | some fields => jsonStringifyObj fields
  | none => []

/-- `_dedupeKey` (src/core/HttpClient.ts lines 225-234): the fingerprint is
`[method, input, queryJson, bodyString].join("|")`.  Note that neither the
headers nor the base-URL-resolved URL participate: the raw builder `input`
path is used. -/
def dedupeKey {A R : Type} (rb : RequestBuilder A R) : Str :=
  List.intercalate ['|'] [rb._method, rb.input, queryKeyPart rb._query, bodyKeyPart rb._body]

/-- Retry context (src/retry/RetryStrategy.ts lines 3-8): the 1-based
attempt number and the response, `none` when no response was obtained.
The `config` field carries no information the claims need and is omitted. -/
structure RetryCtx where
  attempt : Nat
  response : Option Nat
  deriving DecidableEq

/-- `ExponentialRetryStrategy` options with their constructor defaults
(src/retry/ExponentialRetryStrategy.ts lines 29-36); delays are modelled
over the rationals. -/
structure ExponentialRetryStrategy where
  maxAttempts : Nat := 3
  baseDelay : ℚ := 300
  maxDelay : ℚ := 10000
  retryStatusCodes : List Nat := [429, 500, 502, 503, 504]
  respectRetryAfter : Bool := true
  retryOnNetworkError : Bool := true

/-- `ExponentialRetryStrategy.shouldRetry` (src/retry/ExponentialRetryStrategy.ts
lines 38-48). -/
def ExponentialRetryStrategy.shouldRetry (s : ExponentialRetryStrategy) (ctx : RetryCtx) :
    Bool :=
  if s.maxAttempts ≤ ctx.attempt then false
  else
    match ctx.response with
    | none => s.retryOnNetworkError
    | some status => s.retryStatusCodes.contains status

/-- `ExponentialRetryStrategy.nextDelay` (src/retry/ExponentialRetryStrategy.ts
lines 50-65).  `retryAfter` is the parsed value of the response's
`Retry-After` header in milliseconds (`none` when the header is absent,
unparseable, or there is no response); `r` is the `Math.random()` sample. -/
def ExponentialRetryStrategy.nextDelay (s : ExponentialRetryStrategy)
    (retryAfter : Option ℚ) (r : ℚ) (ctx : RetryCtx) : ℚ :=
  match (if s.respectRetryAfter then retryAfter else none) with
  | some d => min d s.maxDelay
  | none =>
    let e := min (s.baseDelay * 2 ^ (ctx.attempt - 1)) s.maxDelay
    e / 2 + r * (e / 2)

/-- `JitteredExponentialBackoffRetryStrategy` constructor defaults
(src/auth/AuthStrategy.ts lines 120-125); this is the client's default
retry strategy in src/core/HttpClient.ts line 39. -/
structure JitteredBackoffStrategy where
  maxAttempts : Nat := 3
  base : ℚ := 300
  maxDelay : ℚ := 10000

/-- `JitteredExponentialBackoffRetryStrategy.shouldRetry`
(src/auth/AuthStrategy.ts lines 127-133). -/
def JitteredBackoffStrategy.shouldRetry (s : JitteredBackoffStrategy) (ctx : RetryCtx) :
    Bool :=
  if s.maxAttempts ≤ ctx.attempt then false
  else
    match ctx.response with
    | none => true
    | some status => 500 ≤ status || status == 429

/-- `JitteredExponentialBackoffRetryStrategy.nextDelay`
(src/auth/AuthStrategy.ts lines 135-138): exponential window capped at
`maxDelay`, then half-jitter; `r` is the `Math.random()` sample. -/
def JitteredBackoffStrategy.nextDelay (s : JitteredBackoffStrategy) (r : ℚ)
    (ctx : RetryCtx) : ℚ :=
  let e := min (s.base * 2 ^ (ctx.attempt - 1)) s.maxDelay
  e / 2 + r * (e / 2)

/-- The capped exponential window `min(base * 2^(n-1), maxDelay)` for the
1-based attempt `n`, shared by both backoff implementations. -/
def expWindow (base maxDelay : ℚ) (attempt : Nat) : ℚ :=
  min (base * 2 ^ (attempt - 1)) maxDelay

/-- Outcome of one `fetch` call inside the attempt loop:
a response with a status, a network-level failure (the `catch` block of
src/core/HttpClient.ts lines 133-138 swallows non-abort errors, leaving
`response` undefined), or an abort (rethrown, line 135). -/
inductive FetchOutcome where
  | resp (status : Nat)
  | netFail
  | aborted
  deriving DecidableEq

/-- Environment of one iteration of the attempt loop: the fetch outcome and
the value `this.defaults.auth.refresh(request, response)` would resolve to
if the engine invokes it. -/
structure IterEvent where
  fetch : FetchOutcome
  refreshHandled : Bool
  deriving DecidableEq

/-- Result of the attempt loop.  `outOfFuel` is the marker that the loop
was still running after consuming all fuel given to the model. -/
inductive ExecResult where
  | success (status : Nat)
  | httpError (status : Option Nat)
  | abortError
  | outOfFuel
  deriving DecidableEq

/-- Observable log of a loop run: how many `fetch` calls were made and the
exact `RetryContext`s passed to `shouldRetry`. -/
structure ExecLog where
  fetches : Nat := 0
  consulted : List RetryCtx := []
  deriving DecidableEq

/-- `response.ok` of the Fetch API. -/
def respOk (status : Nat) : Bool := 200 ≤ status && status < 300

/-- The attempt loop of `_execute` (src/core/HttpClient.ts lines 111-195).
`hasRefreshHook` models `this.defaults.auth?.refresh` being present (the
hook always consults the client default, not the per-request override);
`strat` is the effective strategy's `shouldRetry` (already resolved via
`rb._retry ?? this.defaults.retryStrategy`; `none` models a `null`
strategy, for which `?? false` applies).  Each iteration increments
`attempt` first (line 115 `attempt++`), fetches, then:
refresh-handled responses `continue` (line 144); non-ok responses consult
`shouldRetry` and `continue` on true (the awaited delay does not change
state and is not modelled); otherwise an error is thrown or the response
returned.  The `iter` index walks the environment. -/
def execLoop (hasRefreshHook : Bool) (strat : Option (RetryCtx → Bool))
    (env : Nat → IterEvent) : Nat → Nat → Nat → ExecLog → ExecResult × ExecLog
  | 0, _, _, log => (.outOfFuel, log)
  | fuel + 1, iter, attempt, log =>
    let attempt' := attempt + 1
    let ev := env iter
    match ev.fetch with
    | .aborted => (.abortError, { log with fetches := log.fetches + 1 })
    | .netFail =>
      -- response is undefined: the refresh branch and the retry branch both
      -- require `response`, so the error is thrown directly (line 166).
      (.httpError none, { log with fetches := log.fetches + 1 })
    | .resp status =>
      let log := { log with fetches := log.fetches + 1 }
      if hasRefreshHook && ev.refreshHandled then
        execLoop hasRefreshHook strat env fuel (iter + 1) attempt' log
      else if respOk status then
        (.success status, log)
      else
        match strat with
        | some sr =>
          let ctx : RetryCtx := ⟨attempt', some status⟩
          let log := { log with consulted := log.consulted ++ [ctx] }
          if sr ctx then execLoop hasRefreshHook strat env fuel (iter + 1) attempt' log
          else (.httpError (some status), log)
        | none => (.httpError (some status), log)

/-- Test of the pre-compiled pattern `^https?:\/\/` used by `resolveUrl`
(src/core/HttpClient.ts line 243). -/
def httpUrlTest (s : Str) : Bool :=
  "http://".toList.isPrefixOf s || "https://".toList.isPrefixOf s

/-- Structured model of a parsed absolute `http(s)` URL, as produced by the
platform's `new URL(...)` for the simple inputs the engine builds:
the scheme including `://`, the non-empty authority, and the remainder of
the input (path, query, fragment) exactly as written.  WHATWG host
canonicalization, percent-encoding and dot-segment removal are outside the
model; none of the claims depend on them. -/
structure UrlModel where
  scheme : Str
  host : Str
  rest : Str
  deriving DecidableEq

/-- Characters that terminate the authority component. -/
def urlSepChar (c : Char) : Bool := c == '/' || c == '?' || c == '#'

/-- Authority-splitting step of the URL model: take the authority up to the
first `/`, `?` or `#`, fail (as the platform constructor throws) when it is
empty. -/
def parseAfterScheme (scheme rest : Str) : Option UrlModel :=
  let host := rest.takeWhile (fun c => !urlSepChar c)
  if host.isEmpty then none
  else some ⟨scheme, host, rest.drop host.length⟩

/-- Model of `new URL(s)` for absolute `http(s)` URLs: split off the scheme,
then split the authority. -/
def parseHttpUrl (s : Str) : Option UrlModel :=
  if "http://".toList.isPrefixOf s then parseAfterScheme "http://".toList (s.drop 7)
  else if "https://".toList.isPrefixOf s then parseAfterScheme "https://".toList (s.drop 8)
  else none

/-- Model of `URL.toString()`: scheme, authority, then the rest, with the
WHATWG normalization that an empty or non-`/`-initial rest gains a leading
`/` (the pathname of an `http` URL is never empty). -/
def urlToString (u : UrlModel) : Str :=
  u.scheme ++ u.host ++ (if u.rest.head? = some '/' then u.rest else '/' :: u.rest)

/-- The single-occurrence regex replace `baseUrl.replace(/\/$/, "")`
(src/core/HttpClient.ts line 248). -/
def stripTrailingSlash (s : Str) : Str :=
  if s.getLast? = some '/' then s.dropLast else s

/-- The single-occurrence regex replace `path.replace(/^\//, "")`
(src/core/HttpClient.ts line 251). -/
def stripLeadingSlash (s : Str) : Str :=
  if s.head? = some '/' then s.tail else s

/-- `resolveUrl` (src/core/HttpClient.ts lines 236-257): empty paths yield
the base URL, paths matching `^https?:\/\/` are used as-is, anything else
is joined as `strippedBase ++ "/" ++ strippedPath`; the result goes through
`new URL(...)`. -/
def resolveUrl (baseUrl path : Str) : Option UrlModel :=
  if path.isEmpty then parseHttpUrl baseUrl
  else if httpUrlTest path then parseHttpUrl path
  else parseHttpUrl (stripTrailingSlash baseUrl ++ '/' :: stripLeadingSlash path)

/-- The engine's base-URL fallback (src/core/HttpClient.ts line 261:
`this.defaults.baseUrl || "http://localhost"`; the empty string is the
only falsy string). -/
def effectiveBaseUrl (b : Str) : Str :=
  if b.isEmpty then "http://localhost".toList else b

/-- Model of utils/toQuery.ts restricted to string-valued entries:
`key=value` pairs joined by `&`.  The percent-encoding performed by
`URLSearchParams` is not modelled; no claim depends on the encoded text. -/
def toQuery (q : List (Str × Str)) : Str :=
  List.intercalate ['&'] (q.map fun kv => kv.1 ++ '=' :: kv.2)

/-- Model of the `url.search = ...` assignment (src/core/HttpClient.ts
line 264): the rest is truncated at the first `?` and the new search
appended (an empty search clears the `?`). -/
def setSearch (u : UrlModel) (q : Str) : UrlModel :=
  let path := u.rest.takeWhile (fun c => !(c == '?'))
  { u with rest := if q.isEmpty then path else path ++ '?' :: q }

/-- The wire-level request config (`HttpRequestConfig`, src/types.ts):
`url`, `method`, `headers`, `body`, `timeout`, `signal`, `responseType`.
`_buildConfig` returns an object literal that contains no `timeout` or
`signal` key, so those fields are `none` in every config it builds. -/
structure HttpRequestConfig where
  url : Str
  method : Str
  headers : Headers
  body : Body
  timeout : Option Nat := none
  signal : Option Nat := none
  responseType : Option Str := none
  deriving DecidableEq

/-- `_buildConfig` (src/core/HttpClient.ts lines 259-289).  `enrichResult`
is the header record the effective auth strategy's awaited `enrich` call
returns (empty when there is no auth).  Mirrors the source: base-URL
fallback, `resolveUrl`, conditional `url.search` assignment, header merge
of defaults, request headers (only when non-empty) and auth headers (only
when non-empty), then the returned object literal — which carries no
`timeout` and no `signal` key. -/
def buildConfig {A R : Type} (c : HttpClientDefaults A R) (enrichResult : Headers)
    (rb : RequestBuilder A R) : Option HttpRequestConfig :=
  let baseUrl := effectiveBaseUrl c.baseUrl
  match resolveUrl baseUrl rb.input with
  | none => none
  | some url0 =>
    let url := match rb._query with
      | some q => setSearch url0 (toQuery q)
      | none => url0
    let headers0 := c.defaultHeaders
    let headers1 := if rb._headers.isEmpty then headers0 else mergeHeaders headers0 rb._headers
    let headers2 := match effectiveAuth c rb with
      | some _ => if enrichResult.isEmpty then headers1 else mergeHeaders headers1 enrichResult
      | none => headers1
    some { url := urlToString url
           method := rb._method
           headers := headers2
           body := rb._body
           responseType := match rb._responseType with
             | some t => some t
             | none => c.responseType }

/-- The signal handed to `fetch` (src/core/HttpClient.ts line 122):
the config's signal if present, else the signal of the freshly created
internal `AbortController`. -/
inductive EffectiveSignal where
  | caller (s : Nat)
  | internalController
  deriving DecidableEq

/-- Cancellation setup of one attempt (src/core/HttpClient.ts lines
118-122): an internal controller is created exactly when `config.signal`
is absent; `setTimeout(() => controller.abort(...), config.timeout)` is
scheduled exactly when `config.timeout` is truthy (non-zero) and a
controller was created. `timeoutArmed` records the scheduled delay. -/
structure CancellationSetup where
  signal : EffectiveSignal
  timeoutArmed : Option Nat
  deriving DecidableEq

/-- `setupCancellation` models lines 119-122 of src/core/HttpClient.ts. -/
def setupCancellation (config : HttpRequestConfig) : CancellationSetup :=
  match config.signal with
  | some s => { signal := .caller s, timeoutArmed := none }
  | none =>
    { signal := .internalController
      timeoutArmed := match config.timeout with
        | some t => if t = 0 then none else some t
        | none => none }

/-- State of the deduplication machinery of one client instance
(src/core/HttpClient.ts line 29, `inflight : Map<string, Promise>`).
Promises are identified by allocation order (`nextId`); `networkCalls`
counts the attempt-loop executions that were started (each corresponds to
the single logical network request of the claim; retries inside one loop
are counted by `ExecLog.fetches`, not here). -/
structure DedupState where
  inflight : List (Str × Nat) := []
  nextId : Nat := 0
  networkCalls : Nat := 0
  deriving DecidableEq

/-- `Map.get`-style lookup on the in-flight list. -/
def lookupKey (l : List (Str × Nat)) (k : Str) : Option Nat :=
  match l with
  | [] => none
  | (k', p) :: t => if k' = k then some p else lookupKey t k

/-- Events of the dedupe machine.  `exec k` is a call to `_execute` whose
dedupe flag is on and whose fingerprint is `k`; the body of `_execute`
contains no suspension point between the `has(key)` check (line 106) and
the `set(key, promise)` (line 205), so one event models the whole
synchronous prefix.  `settle k` is the settlement of the promise stored
under `k`: its `finally` handler (lines 198-202) runs
`inflight.delete(key)` on success and failure alike. -/
inductive DedupEvent where
  | exec (key : Str)
  | settle (key : Str)

/-- What an `_execute` caller receives. -/
inductive ExecOutcome where
  | joined (pid : Nat)
  | started (pid : Nat)
  deriving DecidableEq

/-- One step of the dedupe machine, mirroring `_execute`
(src/core/HttpClient.ts lines 102-108 and 197-208). -/
def dedupeStep (s : DedupState) (e : DedupEvent) : DedupState × Option ExecOutcome :=
  match e with
  | .exec k =>
    match lookupKey s.inflight k with
    | some p => (s, some (.joined p))
    | none =>
      ({ inflight := s.inflight ++ [(k, s.nextId)]
         nextId := s.nextId + 1
         networkCalls := s.networkCalls + 1 }, some (.started s.nextId))
  | .settle k =>
    ({ s with inflight := s.inflight.filter (fun kv => decide (kv.1 ≠ k)) }, none)

/-- Run the dedupe machine over an event list from a given state. -/
def runDedupeFrom (s : DedupState) (evs : List DedupEvent) : DedupState :=
  evs.foldl (fun st e => (dedupeStep st e).1) s

/-- Run the dedupe machine from the client's initial (empty-map) state. -/
def runDedupe (evs : List DedupEvent) : DedupState :=
  runDedupeFrom {} evs

/-- State of `OpaqueTokenStrategy` refresh processing
(src/auth/AuthStrategy.ts lines 100-116).  The strategy keeps no in-flight
slot: every invocation of `handleRequestError` that passes the status and
stored-refresh-token checks reaches the `fetch` of the refresh endpoint
independently, so the model only counts outstanding and total refresh
requests. -/
structure OpaqueRefreshState where
  outstanding : Nat := 0
  total : Nat := 0
  deriving DecidableEq

/-- Events of the `OpaqueTokenStrategy` model: an invocation of
`handleRequestError` reaching its fetch decision point (the status of the
failed response and whether storage holds a refresh token), or the
settlement of one outstanding refresh request. -/
inductive OpaqueRefreshEvent where
  | invoke (status : Nat) (hasRefreshToken : Bool)
  | settle

/-- One step of the `OpaqueTokenStrategy` refresh model: a request to the
identity provider starts whenever the guards of lines 101-103 pass —
there is no check for an already-outstanding refresh. -/
def opaqueRefreshStep (s : OpaqueRefreshState) (e : OpaqueRefreshEvent) : OpaqueRefreshState :=
  match e with
  | .invoke status hasTok =>
    if (status = 401 ∨ status = 403) ∧ hasTok then
      { outstanding := s.outstanding + 1, total := s.total + 1 }
    else s
  | .settle => { s with outstanding := s.outstanding - 1 }

/-- Run the `OpaqueTokenStrategy` refresh model from the initial state. -/
def runOpaqueRefresh (evs : List OpaqueRefreshEvent) : OpaqueRefreshState :=
  evs.foldl opaqueRefreshStep {}

/-- State of `RefreshRotationStrategy` refresh coalescing
(src/auth-strategies/refresh-rotation.strategy.ts lines 14-15, 37-53):
`slot` is `this.refreshPromise`, promises are identified by allocation
order, `outstanding` counts provider refresh requests in flight. -/
structure RotationState where
  slot : Option Nat := none
  nextId : Nat := 0
  outstanding : Nat := 0
  deriving DecidableEq

/-- Events of the `RefreshRotationStrategy` model: a call to
`refreshToken()` (the check of the slot and its assignment happen in the
same synchronous prefix), or the settlement of the in-flight provider
request, whose `finally` clears the slot on success and failure alike. -/
inductive RotationEvent where
  | call
  | settle

/-- One step of the `RefreshRotationStrategy` model, with the promise id
the caller receives. -/
def rotationStep (s : RotationState) (e : RotationEvent) : RotationState × Option Nat :=
  match e with
  | .call =>
    match s.slot with
    | some p => (s, some p)
    | none =>
      ({ slot := some s.nextId, nextId := s.nextId + 1, outstanding := s.outstanding + 1 },
        some s.nextId)
  | .settle =>
    match s.slot with
    | some _ => ({ s with slot := none, outstanding := s.outstanding - 1 }, none)
    | none => (s, none)

/-- Run the `RefreshRotationStrategy` model from the initial state. -/
def runRotation (evs : List RotationEvent) : RotationState :=
  evs.foldl (fun st e => (rotationStep st e).1) {}

/-- Environment for the refresh-replay scenario: the first fetch returns
401 and the default auth strategy's refresh hook reports handled; every
later fetch returns 500 with the hook declining. -/
def refreshReplayEnv : Nat → IterEvent :=
  fun i => if i = 0 then ⟨.resp 401, true⟩ else ⟨.resp 500, false⟩

/-- A client whose defaults carry an auth strategy (id 7) and a retry
strategy (id 9); strategy instances are identified by number. -/
def nullOverrideClient : HttpClientDefaults Nat Nat :=
  { auth := some 7, retryStrategy := some 9 }

/-- A request on `nullOverrideClient` that called `auth(null)` and
`retry(null)`. -/
def nullOverrideBuilder : RequestBuilder Nat Nat :=
  ((mkRequestBuilder nullOverrideClient "/x".toList).auth none).retry none

/-- Environment in which every fetch fails at the network level without a
response (and without being an abort). -/
def netFailEnv : Nat → IterEvent :=
  fun _ => ⟨.netFail, false⟩

/-- Environment in which every fetch yields a 500 response and no refresh
is ever reported handled. -/
def always500Env : Nat → IterEvent :=
  fun _ => ⟨.resp 500, false⟩

/-- A client with all-default options (no auth, no default headers). -/
def plainClient : HttpClientDefaults Nat Nat := {}

/-- A request that configured `timeout(100)` and no cancellation token. -/
def timeoutBuilder : RequestBuilder Nat Nat :=
  (mkRequestBuilder plainClient "/data".toList).timeout 100

/-- A request that configured `timeout(100)` and `signal(55)`. -/
def timeoutSignalBuilder : RequestBuilder Nat Nat :=
  ((mkRequestBuilder plainClient "/data".toList).timeout 100).signalM 55

/-- Two builders identical in method, path, query and body but with
different header values. -/
def headerVariantA : RequestBuilder Nat Nat :=
  (mkRequestBuilder plainClient "/users".toList).header "X-Trace".toList "1".toList

/-- Second builder of the header-variant pair. -/
def headerVariantB : RequestBuilder Nat Nat :=
  (mkRequestBuilder plainClient "/users".toList).header "X-Trace".toList "2".toList

/-- Run of the dedupe machine that also records what each `exec` caller
received. -/
def runDedupeTrace (s : DedupState) : List DedupEvent → DedupState × List (Option ExecOutcome)
  | [] => (s, [])
  | e :: t =>
    let step := dedupeStep s e
    let rest := runDedupeTrace step.1 t
    (rest.1, step.2 :: rest.2)

/-- The config `_buildConfig` produces for `timeoutBuilder` on the
default-constructed client. -/
def sampleConfig : HttpRequestConfig :=
  { url := "http://localhost/data".toList
    method := "GET".toList
    headers := []
    body := .noBody }

/-- C1: evaluation of the attempt loop at the failing input.  With the
default jittered strategy, a first fetch answered 401 whose refresh hook
returns handled, and a 500 on the replay, the engine passes
`attempt = 2` to `shouldRetry` on the first ordinary retry consultation:
`attempt++` runs at the top of every loop iteration
(src/core/HttpClient.ts line 115), so the refresh-and-replay iteration
does increment the retry-attempt counter, contrary to the claim (and to
the comment on line 144, "don't count as retry attempt").  The replay
iteration itself does skip the RetryStrategy (no consultation is logged
for the 401). -/
theorem c1_refresh_replay_increments_attempt_counter :
    execLoop true (some (JitteredBackoffStrategy.shouldRetry {})) refreshReplayEnv 10 0 0 {}
      = (.httpError (some 500),
          { fetches := 3, consulted := [⟨2, some 500⟩, ⟨3, some 500⟩] }) := by
  decide

/-- C2: evaluation at the failing input.  The builder faithfully stores the
explicit-`null` state for `auth(null)` and `retry(null)`, but the engine
resolves both overrides with `??` (src/core/HttpClient.ts lines 155 and
274), which collapses `null` into "inherit": with a client default auth
strategy (7) and retry strategy (9), the disabled request still gets both
defaults, so enrich and retry consultation happen anyway. -/
theorem c2_explicit_null_collapses_to_client_default :
    nullOverrideBuilder._auth = some none ∧ nullOverrideBuilder._retry = some none ∧
    effectiveAuth nullOverrideClient nullOverrideBuilder = some 7 ∧
    effectiveRetryStrategy nullOverrideClient nullOverrideBuilder = some 9 := by
  decide

/-- C4: evaluation at the failing input.  A network-level failure leaves
`response` undefined, and both the refresh branch (line 141) and the retry
branch (line 148) of src/core/HttpClient.ts require `response`, so the
engine throws immediately: the default strategy, which would have answered
`shouldRetry = true` for a no-response context (retryOnNetworkError), is
never consulted, contrary to the claim. -/
theorem c4_network_failure_bypasses_retry_strategy :
    execLoop false (some (ExponentialRetryStrategy.shouldRetry {})) netFailEnv 5 0 0 {}
      = (.httpError none, { fetches := 1, consulted := [] }) ∧
    ExponentialRetryStrategy.shouldRetry {} ⟨1, none⟩ = true := by
  decide

/-- C5: evaluation at the failing input.  The builder stores `timeout(100)`
and `signal(55)`, but the object literal `_buildConfig` returns
(src/core/HttpClient.ts lines 282-289) carries neither key, so
`config.timeout` and `config.signal` are always absent: no auto-cancel
timer is ever armed (the `setTimeout` guard on line 120 sees a falsy
timeout) and the signal handed to `fetch` is always the fresh internal
controller's, never the caller's — the configured timeout and signal never
reach the network layer. -/
theorem c5_timeout_and_signal_never_reach_fetch :
    timeoutBuilder._timeout = some 100 ∧ timeoutBuilder._signal = none ∧
    timeoutSignalBuilder._signal = some 55 ∧
    (buildConfig plainClient [] timeoutBuilder).map
        (fun cfg => (cfg.timeout, cfg.signal, setupCancellation cfg))
      = some (none, none, ⟨.internalController, none⟩) ∧
    (buildConfig plainClient [] timeoutSignalBuilder).map
        (fun cfg => (cfg.signal, setupCancellation cfg))
      = some (none, ⟨.internalController, none⟩) := by
  decide

/-- C8 counterexample: two requests that differ only in a header value
produce the same deduplication key, so they do share an in-flight entry,
contrary to the claim that header-differing requests never do. -/
theorem c8_counterexample_headers_share_key :
    dedupeKey headerVariantA = dedupeKey headerVariantB ∧
    headerVariantA._headers ≠ headerVariantB._headers := by
  decide

/-- C8 (amended): the deduplication key is a deterministic function of the
method, the raw builder path, the query object and the body only —
`_dedupeKey` (src/core/HttpClient.ts lines 225-234) reads no other field,
so neither headers nor base-URL resolution enter the fingerprint. -/
theorem c8_dedupe_key_function_of_method_path_query_body
    {A R A' R' : Type} (rb1 : RequestBuilder A R) (rb2 : RequestBuilder A' R')
    (hm : rb1._method = rb2._method) (hi : rb1.input = rb2.input)
    (hq : rb1._query = rb2._query) (hb : rb1._body = rb2._body) :
    dedupeKey rb1 = dedupeKey rb2 := by
  simp [dedupeKey, hm, hi, hq, hb]

/-- C8 witness: the amended determinism theorem applied to the concrete
header-variant pair. -/
theorem c8_dedupe_key_function_witness :
    dedupeKey headerVariantA = dedupeKey headerVariantB :=
  c8_dedupe_key_function_of_method_path_query_body headerVariantA headerVariantB
    rfl rfl rfl rfl

/-- Lookup failure means the key is absent from the map's key list. -/
theorem lookupKey_eq_none_not_mem {l : List (Str × Nat)} {k : Str}
    (h : lookupKey l k = none) : k ∉ l.map Prod.fst := by
  induction l with
  | nil => simp
  | cons kv t ih =>
    by_cases hk : kv.1 = k
    · simp [lookupKey, hk] at h
    · simp only [lookupKey, hk, if_false] at h
      simp only [List.map_cons, List.mem_cons]
      rintro (rfl | hmem)
      · exact hk rfl
      · exact ih h hmem

/-- Filtering out a key removes it from the lookup. -/
theorem lookupKey_filter_ne (l : List (Str × Nat)) (k : Str) :
    lookupKey (l.filter fun kv => decide (kv.1 ≠ k)) k = none := by
  induction l with
  | nil => rfl
  | cons kv t ih =>
    by_cases hk : kv.1 = k
    · simpa [List.filter, hk] using ih
    · simpa [List.filter, hk, lookupKey] using ih

/-- One dedupe step preserves distinctness of the registered fingerprints. -/
theorem dedupeStep_nodup (s : DedupState) (e : DedupEvent)
    (h : (s.inflight.map Prod.fst).Nodup) :
    (((dedupeStep s e).1.inflight).map Prod.fst).Nodup := by
  cases e with
  | exec k =>
    cases hl : lookupKey s.inflight k with
    | some p => simpa [dedupeStep, hl] using h
    | none =>
      simp only [dedupeStep, hl, List.map_append, List.map_cons, List.map_nil]
      exact List.Nodup.append h (List.nodup_singleton k)
        (fun x hx => by
          simp only [List.mem_singleton]
          rintro rfl
          exact lookupKey_eq_none_not_mem hl hx)
  | settle k =>
    exact h.sublist ((List.filter_sublist _).map Prod.fst)

/-- Running the dedupe machine preserves distinctness of fingerprints. -/
theorem runDedupeFrom_nodup (evs : List DedupEvent) :
    ∀ s : DedupState, (s.inflight.map Prod.fst).Nodup →
      ((runDedupeFrom s evs).inflight.map Prod.fst).Nodup := by
  induction evs with
  | nil => intro s h; simpa [runDedupeFrom] using h
  | cons e t ih =>
    intro s h
    simpa [runDedupeFrom, List.foldl_cons] using
      ih (dedupeStep s e).1 (dedupeStep_nodup s e h)

/-- While an entry exists for `k`, every further identical call joins the
very same promise and the state (in particular `networkCalls`) is
unchanged. -/
theorem runDedupeTrace_joins (k : Str) (p : Nat) :
    ∀ (m : Nat) (s : DedupState), lookupKey s.inflight k = some p →
      runDedupeTrace s (List.replicate m (.exec k))
        = (s, List.replicate m (some (.joined p))) := by
  intro m
  induction m with
  | zero => intro s _; rfl
  | succ n ih =>
    intro s h
    simp only [List.replicate_succ, runDedupeTrace, dedupeStep, h]
    rw [ih s h]

/-- C3: with deduplication enabled, the in-flight map holds at most one
entry per fingerprint (its key list is duplicate-free after any event
sequence from the client's initial state); every `_execute` that finds an
entry returns the very same promise without starting any new attempt loop
or touching the state; settlement removes the key's entry unconditionally;
and `n + 1` identical calls issued while the first is in flight perform
exactly one network call, the first caller starting promise 0 and every
other caller joining that same promise.  Registration is synchronous:
`_execute` contains no suspension point between the `has(key)` check and
`set(key, promise)` (src/core/HttpClient.ts lines 102-108, 197-208), which
the single `exec` event models. -/
theorem c3_dedupe_inflight_invariant :
    ∀ evs : List DedupEvent,
      (((runDedupe evs).inflight.map Prod.fst).Nodup) ∧
      (∀ k p, lookupKey (runDedupe evs).inflight k = some p →
        dedupeStep (runDedupe evs) (.exec k) = (runDedupe evs, some (.joined p))) ∧
      (∀ k, lookupKey ((dedupeStep (runDedupe evs) (.settle k)).1.inflight) k = none) ∧
      (∀ n k, runDedupeTrace {} (List.replicate (n + 1) (.exec k))
        = ({ inflight := [(k, 0)], nextId := 1, networkCalls := 1 },
            some (.started 0) :: List.replicate n (some (.joined 0)))) := by
  intro evs
  refine ⟨runDedupeFrom_nodup evs {} (by simp), ?_, ?_, ?_⟩
  · intro k p h
    simp [dedupeStep, h]
  · intro k
    exact lookupKey_filter_ne _ k
  · intro n k
    have hstep : dedupeStep {} (.exec k)
        = ({ inflight := [(k, 0)], nextId := 1, networkCalls := 1 },
            some (.started 0)) := by
      simp [dedupeStep, lookupKey]
    simp only [List.replicate_succ, runDedupeTrace, hstep]
    rw [runDedupeTrace_joins k 0 n _ (by simp [lookupKey])]

/-- C3 witness: the invariant theorem applied to a concrete two-caller
trace, with the second conjunct discharged at the registered entry. -/
theorem c3_dedupe_inflight_invariant_witness :
    ((runDedupe [.exec "GET|/u||".toList]).inflight.map Prod.fst).Nodup ∧
    dedupeStep (runDedupe [.exec "GET|/u||".toList]) (.exec "GET|/u||".toList)
      = (runDedupe [.exec "GET|/u||".toList], some (.joined 0)) :=
  ⟨(c3_dedupe_inflight_invariant [.exec "GET|/u||".toList]).1,
   (c3_dedupe_inflight_invariant [.exec "GET|/u||".toList]).2.1 "GET|/u||".toList 0
     (by decide)⟩

/-- Each loop iteration performs one fetch, so a run bounded by `fuel`
performs at most `fuel` fetches beyond those already logged. -/
theorem execLoop_fetches_le (hr : Bool) (strat : Option (RetryCtx → Bool))
    (env : Nat → IterEvent) :
    ∀ (fuel iter attempt : Nat) (log : ExecLog),
      (execLoop hr strat env fuel iter attempt log).2.fetches ≤ log.fetches + fuel := by
  intro fuel
  induction fuel with
  | zero => intro iter attempt log; simp [execLoop]
  | succ f ih =>
    intro iter attempt log
    rw [execLoop]
    cases hf : (env iter).fetch with
    | aborted => simp [hf]
    | netFail => simp [hf]
    | resp status =>
      simp only [hf]
      by_cases hrh : hr && (env iter).refreshHandled
      · simp only [hrh, if_true]
        calc (execLoop hr strat env f (iter + 1) (attempt + 1)
                { log with fetches := log.fetches + 1 }).2.fetches
            ≤ log.fetches + 1 + f := ih (iter + 1) (attempt + 1) _
          _ ≤ log.fetches + (f + 1) := by omega
      · simp only [hrh, if_false]
        by_cases hok : respOk status
        · simp [hok]
        · simp only [hok, if_false]
          cases strat with
          | none => simp
          | some sr =>
            by_cases hsr : sr ⟨attempt + 1, some status⟩
            · simp only [hsr, if_true]
              calc (execLoop hr (some sr) env f (iter + 1) (attempt + 1)
                      { fetches := log.fetches + 1,
                        consulted := log.consulted ++ [⟨attempt + 1, some status⟩] }).2.fetches
                  ≤ log.fetches + 1 + f := ih (iter + 1) (attempt + 1) _
                _ ≤ log.fetches + (f + 1) := by omega
            · simp [hsr]

/-- If the strategy refuses to retry once the attempt number reaches `N`
and the refresh hook never reports handled, the attempt loop finishes
within its fuel whenever `N ≤ fuel + attempt` (fuel positive).  This is
the termination argument for the retry bound. -/
theorem execLoop_no_fuel_exhaustion (hr : Bool) (sr : RetryCtx → Bool)
    (env : Nat → IterEvent) (N : Nat)
    (hsr : ∀ ctx : RetryCtx, N ≤ ctx.attempt → sr ctx = false)
    (henv : ∀ i, (env i).refreshHandled = false) :
    ∀ (fuel iter attempt : Nat) (log : ExecLog), 1 ≤ fuel → N ≤ fuel + attempt →
      (execLoop hr (some sr) env fuel iter attempt log).1 ≠ .outOfFuel := by
  intro fuel
  induction fuel with
  | zero => intro iter attempt log h1 _; omega
  | succ f ih =>
    intro iter attempt log _ hN
    rw [execLoop]
    cases hf : (env iter).fetch with
    | aborted => simp [hf]
    | netFail => simp [hf]
    | resp status =>
      simp only [hf, henv iter, Bool.and_false, Bool.false_eq_true, if_false]
      by_cases hok : respOk status
      · simp [hok]
      · simp only [hok, if_false]
        by_cases hsrc : sr ⟨attempt + 1, some status⟩
        · simp only [hsrc, if_true]
          have hlt : attempt + 1 < N := by
            by_contra hge
            exact absurd (hsr ⟨attempt + 1, some status⟩ (by show N ≤ attempt + 1; omega))
              (by simp [hsrc])
          exact ih (iter + 1) (attempt + 1) _ (by omega) (by omega)
        · simp [hsrc]

/-- C6: for the `ExponentialRetryStrategy` configured with
`maxAttempts = N` (N ≥ 1), over any environment whose refresh hook never
reports handled, the attempt loop of `_execute` terminates within `N`
iterations (fuel `N` is never exhausted, the run ends in a returned
response or a thrown error) and performs at most `N` fetches.
`shouldRetry` (src/retry/ExponentialRetryStrategy.ts line 39) returns
false as soon as `attempt >= maxAttempts`, and `attempt` grows by one per
iteration of the loop (src/core/HttpClient.ts line 115). -/
theorem c6_retry_bound (s : ExponentialRetryStrategy) (N : Nat) (env : Nat → IterEvent)
    (hr : Bool) (hN : s.maxAttempts = N) (h1 : 1 ≤ N)
    (henv : ∀ i, (env i).refreshHandled = false) :
    (execLoop hr (some s.shouldRetry) env N 0 0 {}).1 ≠ .outOfFuel ∧
    (execLoop hr (some s.shouldRetry) env N 0 0 {}).2.fetches ≤ N := by
  constructor
  · exact execLoop_no_fuel_exhaustion hr s.shouldRetry env N
      (fun ctx h => by simp [ExponentialRetryStrategy.shouldRetry, hN, h]) henv
      N 0 0 {} h1 (by omega)
  · simpa using execLoop_fetches_le hr (some s.shouldRetry) env N 0 0 {}

/-- C6 witness: the bound applied to the default strategy (maxAttempts 3)
over an environment of endless 500 responses. -/
theorem c6_retry_bound_witness :
    (execLoop false (some (ExponentialRetryStrategy.shouldRetry {})) always500Env 3 0 0 {}).1
      ≠ .outOfFuel ∧
    (execLoop false (some (ExponentialRetryStrategy.shouldRetry {})) always500Env 3 0 0 {}).2.fetches
      ≤ 3 :=
  c6_retry_bound {} 3 always500Env false rfl (by decide) (fun _ => rfl)

/-- One rotation step preserves the slot/outstanding linkage: the number of
provider refresh requests in flight equals one exactly when the shared
`refreshPromise` slot is occupied. -/
theorem rotationStep_invariant (s : RotationState) (e : RotationEvent)
    (h : s.outstanding = if s.slot.isSome then 1 else 0) :
    (rotationStep s e).1.outstanding
      = if (rotationStep s e).1.slot.isSome then 1 else 0 := by
  cases e with
  | call =>
    cases hs : s.slot with
    | some p => simpa [rotationStep, hs] using h
    | none => simp [rotationStep, hs] at h ⊢; omega
  | settle =>
    cases hs : s.slot with
    | some p => simp [rotationStep, hs] at h ⊢; omega
    | none => simpa [rotationStep, hs] using h

/-- The slot/outstanding linkage holds in every state reachable from the
strategy's initial state. -/
theorem runRotation_invariant (evs : List RotationEvent) :
    ∀ s : RotationState, s.outstanding = (if s.slot.isSome then 1 else 0) →
      (evs.foldl (fun st e => (rotationStep st e).1) s).outstanding
        = if (evs.foldl (fun st e => (rotationStep st e).1) s).slot.isSome then 1 else 0 := by
  induction evs with
  | nil => intro s h; simpa using h
  | cons e t ih =>
    intro s h
    simpa [List.foldl_cons] using ih (rotationStep s e).1 (rotationStep_invariant s e h)

/-- C9 counterexample: in the `OpaqueTokenStrategy` model, two
`handleRequestError` invocations that both reach the fetch decision while
neither refresh has settled (each sees a 401 and a stored refresh token)
start two simultaneous refresh requests to the identity provider: that
strategy — the one matching the spec's storage-based reference
description — has no in-flight slot, so refreshes are not coalesced. -/
theorem c9_counterexample_opaque_refresh_not_coalesced :
    (runOpaqueRefresh [.invoke 401 true, .invoke 401 true]).outstanding = 2 ∧
    ¬ (runOpaqueRefresh [.invoke 401 true, .invoke 401 true]).outstanding ≤ 1 := by
  decide

/-- C9 (amended): the refresh coalescing holds for
`RefreshRotationStrategy.refreshToken`
(src/auth-strategies/refresh-rotation.strategy.ts lines 37-53), whose
shared `refreshPromise` slot is checked and assigned without an
intervening suspension point and cleared by `finally` on settlement:
after any event sequence from the initial state, at most one provider
refresh request is outstanding, and a call made while the slot holds
promise `p` returns that same promise with the state unchanged. -/
theorem c9_rotation_refresh_coalesced (evs : List RotationEvent) :
    (runRotation evs).outstanding ≤ 1 ∧
    ∀ p, (runRotation evs).slot = some p →
      rotationStep (runRotation evs) .call = (runRotation evs, some p) := by
  constructor
  · have h := runRotation_invariant evs {} (by simp)
    unfold runRotation
    split at h <;> omega
  · intro p hp
    simp [rotationStep, hp]

/-- C9 witness: the coalescing theorem applied to the one-call trace, in
which promise 0 occupies the slot. -/
theorem c9_rotation_refresh_coalesced_witness :
    (runRotation [RotationEvent.call]).outstanding ≤ 1 ∧
    rotationStep (runRotation [RotationEvent.call]) .call
      = (runRotation [RotationEvent.call], some 0) :=
  ⟨(c9_rotation_refresh_coalesced [RotationEvent.call]).1,
   (c9_rotation_refresh_coalesced [RotationEvent.call]).2 0 (by decide)⟩

/-- C7: properties of the jittered exponential backoff.  With base `b > 0`,
cap `maxDelay ≥ 0` and jitter sample `r ∈ [0,1)`:
`nextDelay` at 1-based attempt `n` equals `e/2 + r*(e/2)` for
`e = min (b * 2^(n-1)) maxDelay` (src/auth/AuthStrategy.ts lines 135-138),
the delay lies in `[e/2, e]` and never exceeds `maxDelay`; with a fixed
jitter sample the delay strictly grows from attempt `k` to `k+1` while the
window has not reached `maxDelay`; and the Retry-After override of
`ExponentialRetryStrategy.nextDelay`
(src/retry/ExponentialRetryStrategy.ts lines 52-59) is clamped to its
`maxDelay`. -/
theorem c7_backoff_delay_properties (M : Nat) (base maxD r d : ℚ) (resp : Option Nat)
    (n k : Nat) (s : ExponentialRetryStrategy) (ctx : RetryCtx)
    (hb : 0 < base) (hmd : 0 ≤ maxD) (hr0 : 0 ≤ r) (hr1 : r < 1)
    (hk : 1 ≤ k) (hcap : expWindow base maxD k < maxD)
    (hra : s.respectRetryAfter = true) :
    JitteredBackoffStrategy.nextDelay ⟨M, base, maxD⟩ r ⟨n, resp⟩
        = expWindow base maxD n / 2 + r * (expWindow base maxD n / 2) ∧
      expWindow base maxD n / 2
        ≤ JitteredBackoffStrategy.nextDelay ⟨M, base, maxD⟩ r ⟨n, resp⟩ ∧
      JitteredBackoffStrategy.nextDelay ⟨M, base, maxD⟩ r ⟨n, resp⟩
        ≤ expWindow base maxD n ∧
      JitteredBackoffStrategy.nextDelay ⟨M, base, maxD⟩ r ⟨n, resp⟩ ≤ maxD ∧
      JitteredBackoffStrategy.nextDelay ⟨M, base, maxD⟩ r ⟨k, resp⟩
        < JitteredBackoffStrategy.nextDelay ⟨M, base, maxD⟩ r ⟨k + 1, resp⟩ ∧
      ExponentialRetryStrategy.nextDelay s (some d) r ctx = min d s.maxDelay ∧
      ExponentialRetryStrategy.nextDelay s (some d) r ctx ≤ s.maxDelay := by
  have hw : ∀ m : Nat, 0 ≤ expWindow base maxD m := by
    intro m
    exact le_min (by positivity) hmd
  have hform : ∀ m : Nat,
      JitteredBackoffStrategy.nextDelay ⟨M, base, maxD⟩ r ⟨m, resp⟩
        = expWindow base maxD m / 2 + r * (expWindow base maxD m / 2) := by
    intro m
    rfl
  have hupper : ∀ m : Nat,
      JitteredBackoffStrategy.nextDelay ⟨M, base, maxD⟩ r ⟨m, resp⟩
        ≤ expWindow base maxD m := by
    intro m
    rw [hform m]
    nlinarith [hw m]
  have hclamp : ExponentialRetryStrategy.nextDelay s (some d) r ctx = min d s.maxDelay := by
    simp [ExponentialRetryStrategy.nextDelay, hra]
  refine ⟨hform n, ?_, hupper n, ?_, ?_, hclamp, ?_⟩
  · rw [hform n]
    nlinarith [hw n]
  · exact le_trans (hupper n) (min_le_right _ _)
  · have hBlt : base * 2 ^ (k - 1) < maxD := by
      rcases le_or_lt maxD (base * 2 ^ (k - 1)) with h | h
      · exfalso
        have : expWindow base maxD k = maxD := min_eq_right h
        rw [this] at hcap
        exact lt_irrefl _ hcap
      · exact h
    have hE1 : expWindow base maxD k = base * 2 ^ (k - 1) := min_eq_left hBlt.le
    have hpow : (2 : ℚ) ^ ((k + 1) - 1) = 2 ^ (k - 1) * 2 := by
      have hkk : (k + 1) - 1 = (k - 1) + 1 := by omega
      rw [hkk, pow_succ]
    have hB1pos : 0 < base * 2 ^ (k - 1) := by positivity
    have hE2gt : expWindow base maxD k < expWindow base maxD (k + 1) := by
      rw [hE1]
      refine lt_min ?_ hBlt
      rw [hpow]
      nlinarith
    rw [hform k, hform (k + 1)]
    nlinarith [hE2gt, hw k]
  · rw [hclamp]
    exact min_le_right _ _

/-- C7 witness: the backoff properties at base 300, cap 10000, jitter 1/2,
attempts 1 and 2, with a Retry-After of 50000 ms clamped to the cap. -/
theorem c7_backoff_delay_properties_witness :
    JitteredBackoffStrategy.nextDelay ⟨3, 300, 10000⟩ (1/2) ⟨1, none⟩
        = expWindow 300 10000 1 / 2 + (1/2) * (expWindow 300 10000 1 / 2) ∧
      expWindow 300 10000 1 / 2
        ≤ JitteredBackoffStrategy.nextDelay ⟨3, 300, 10000⟩ (1/2) ⟨1, none⟩ ∧
      JitteredBackoffStrategy.nextDelay ⟨3, 300, 10000⟩ (1/2) ⟨1, none⟩
        ≤ expWindow 300 10000 1 ∧
      JitteredBackoffStrategy.nextDelay ⟨3, 300, 10000⟩ (1/2) ⟨1, none⟩ ≤ 10000 ∧
      JitteredBackoffStrategy.nextDelay ⟨3, 300, 10000⟩ (1/2) ⟨1, none⟩
        < JitteredBackoffStrategy.nextDelay ⟨3, 300, 10000⟩ (1/2) ⟨1 + 1, none⟩ ∧
      ExponentialRetryStrategy.nextDelay {} (some 50000) (1/2) ⟨1, none⟩ = min 50000 10000 ∧
      ExponentialRetryStrategy.nextDelay {} (some 50000) (1/2) ⟨1, none⟩ ≤ 10000 :=
  c7_backoff_delay_properties 3 300 10000 (1/2) 50000 none 1 1 {} ⟨1, none⟩
    (by norm_num) (by norm_num) (by norm_num) (by norm_num) (by norm_num)
    (by rw [expWindow]; norm_num) rfl

/-- Splitting a list at the end of its matching head segment reassembles it. -/
theorem takeWhile_append_drop_length (p : Char → Bool) :
    ∀ l : Str, l.takeWhile p ++ l.drop (l.takeWhile p).length = l := by
  intro l
  induction l with
  | nil => rfl
  | cons a t ih =>
    by_cases h : p a
    · simpa [List.takeWhile_cons, h] using ih
    · simp [List.takeWhile_cons, h]

/-- Joining any suffix under the localhost base parses to the localhost
authority with a root-anchored rest. -/
theorem parseHttpUrl_localhost_join (np : Str) :
    parseHttpUrl ("http://localhost".toList ++ '/' :: np)
      = some ⟨"http://".toList, "localhost".toList, '/' :: np⟩ := rfl

/-- The rendered URL of any model with the localhost authority begins with
`http://localhost/`. -/
theorem urlToString_localhost_root (rest : Str) :
    "http://localhost/".toList <+: urlToString ⟨"http://".toList, "localhost".toList, rest⟩ := by
  unfold urlToString
  by_cases h : rest.head? = some '/'
  · rcases rest with _ | ⟨c, t⟩
    · simp at h
    · simp only [List.head?_cons, Option.some.injEq] at h
      subst h
      simp only [if_pos rfl]
      exact ⟨t, rfl⟩
  · rw [if_neg h]
    exact ⟨rest, rfl⟩

/-- On a client without a base URL, any path that does not match
`^https?:\/\/` resolves to the localhost authority. -/
theorem resolveUrl_no_base_localhost (path : Str) (hm : httpUrlTest path = false) :
    ∃ rest, resolveUrl (effectiveBaseUrl []) path
      = some ⟨"http://".toList, "localhost".toList, rest⟩ := by
  rcases path with _ | ⟨c, t⟩
  · exact ⟨[], rfl⟩
  · refine ⟨'/' :: stripLeadingSlash (c :: t), ?_⟩
    show resolveUrl ("http://localhost".toList) (c :: t) = _
    unfold resolveUrl
    rw [if_neg (by simp), if_neg (by simp [hm])]
    exact parseHttpUrl_localhost_join (stripLeadingSlash (c :: t))

/-- A successfully parsed URL whose rest is root-anchored renders back to
the exact input string. -/
theorem parseHttpUrl_roundtrip (s : Str) (u : UrlModel) (hp : parseHttpUrl s = some u)
    (hroot : u.rest.head? = some '/') : urlToString u = s := by
  have after : ∀ (scheme rest : Str), parseAfterScheme scheme rest = some u →
      scheme ++ rest = s → urlToString u = s := by
    intro scheme rest hps hsum
    unfold parseAfterScheme at hps
    by_cases hh : (rest.takeWhile (fun c => !urlSepChar c)).isEmpty
    · simp [hh] at hps
    · rw [if_neg hh] at hps
      obtain rfl := (Option.some.injEq _ _).mp hps
      unfold urlToString
      rw [if_pos hroot, ← hsum, List.append_assoc,
        takeWhile_append_drop_length (fun c => !urlSepChar c) rest]
  unfold parseHttpUrl at hp
  by_cases h1 : "http://".toList.isPrefixOf s
  · rw [if_pos h1] at hp
    obtain ⟨t, ht⟩ := List.isPrefixOf_iff_prefix.mp h1
    refine after "http://".toList (s.drop 7) hp ?_
    rw [← ht]
    rfl
  · rw [if_neg h1] at hp
    by_cases h2 : "https://".toList.isPrefixOf s
    · rw [if_pos h2] at hp
      obtain ⟨t, ht⟩ := List.isPrefixOf_iff_prefix.mp h2
      refine after "https://".toList (s.drop 8) hp ?_
      rw [← ht]
      rfl
    · rw [if_neg h2] at hp
      exact absurd hp (by simp)

/-- C10: on a client constructed without a baseUrl (the default empty
string), `_buildConfig` resolves every path against the fallback base
`http://localhost` (src/core/HttpClient.ts line 261): for any request
whose path does not match `^https?:\/\/` the final config URL begins with
`http://localhost/` (whatever the query), while a path matching the
pattern bypasses the fallback entirely — `resolveUrl` hands it to the URL
constructor alone (line 243), and whenever the parsed path already carries
a root-anchored path component it is rendered back verbatim. -/
theorem c10_localhost_fallback {A R : Type} (c : HttpClientDefaults A R) (enrich : Headers)
    (rb : RequestBuilder A R) (cfg : HttpRequestConfig)
    (hbase : c.baseUrl = [])
    (hcfg : buildConfig c enrich rb = some cfg) :
    (httpUrlTest rb.input = false → "http://localhost/".toList <+: cfg.url) ∧
    (httpUrlTest rb.input = true →
      resolveUrl (effectiveBaseUrl c.baseUrl) rb.input = parseHttpUrl rb.input) ∧
    (∀ u, parseHttpUrl rb.input = some u → u.rest.head? = some '/' →
      urlToString u = rb.input) := by
  refine ⟨?_, ?_, fun u hp hroot => parseHttpUrl_roundtrip rb.input u hp hroot⟩
  · intro hm
    obtain ⟨rest, hres⟩ := resolveUrl_no_base_localhost rb.input hm
    unfold buildConfig at hcfg
    rw [hbase] at hcfg
    simp only [hres] at hcfg
    cases hq : rb._query with
    | none =>
      rw [hq] at hcfg
      simp only [Option.some.injEq] at hcfg
      rw [← hcfg]
      exact urlToString_localhost_root rest
    | some q =>
      rw [hq] at hcfg
      simp only [Option.some.injEq] at hcfg
      rw [← hcfg]
      exact urlToString_localhost_root _
  · intro hm
    have hne : rb.input ≠ [] := by
      intro h
      rw [h] at hm
      exact absurd hm (by decide)
    unfold resolveUrl
    rw [if_neg (by simpa using hne), if_pos hm]

/-- C10 witness: the fallback theorem applied to the concrete
`timeoutBuilder` request (path `/data`, no query) on the default client,
whose built config URL is `http://localhost/data`. -/
theorem c10_localhost_fallback_witness :
    "http://localhost/".toList <+: sampleConfig.url :=
  (c10_localhost_fallback plainClient [] timeoutBuilder sampleConfig rfl (by decide)).1
    (by decide)
